/-
Verification of the CursorToolbox file-to-PDF conversion pipeline.

This file gives a shallow embedding of the pipeline's core logic and proves
(or refutes) the specified properties against it:

* the page-geometry computation of the two conversion variants
  (`convertImageToPDF` in `backend/src/utils/pdfConverter.ts` and
  `convertImageToPDFClient` in `mobile/utils/pdfConverter.ts`), modelled over ℚ;
* the hand-rolled base64 codec of the mobile client, modelled over `List ℕ`
  (byte values) and `List Char` (JS strings);
* the PDF controller endpoints (`convertToPDF`, `getPDF`, `deleteConversion`
  in `backend/src/controllers/pdf.controller.ts`), modelled as explicit
  state transitions over a server state holding the database rows and the
  stored files, with the stream outcome of a download as an input.
-/
import Mathlib

/-! ### Page geometry (Compositor)

Both variants lay a raster of pixel dimensions `width × height` onto an A4
page.  The server variant (`convertImageToPDF`, lines 125-139) computes

  scaleX = pageWidth / imageWidth; scaleY = pageHeight / imageHeight;
  scale = Math.min(scaleX, scaleY)

while the device variant (`convertImageToPDFClient`, lines 104-121) computes

  scale = Math.min(pageWidth / w, pageHeight / h, 1)

and both center the scaled image.  We model the arithmetic over ℚ. -/

def pageWidth : ℚ := 595

def pageHeight : ℚ := 842

structure PageGeometry where
  scale : ℚ
  drawX : ℚ
  drawY : ℚ
  scaledWidth : ℚ
  scaledHeight : ℚ
deriving DecidableEq, Repr

/-- Geometry computed by the server variant `convertImageToPDF`:
`scale = min(pageWidth/w, pageHeight/h)` with no cap at 1, then centering. -/
def serverGeometry (imageWidth imageHeight : ℚ) : PageGeometry :=
  let scaleX := pageWidth / imageWidth
  let scaleY := pageHeight / imageHeight
  let scale := min scaleX scaleY
  let scaledWidth := imageWidth * scale
  let scaledHeight := imageHeight * scale
  { scale := scale
    drawX := (pageWidth - scaledWidth) / 2
    drawY := (pageHeight - scaledHeight) / 2
    scaledWidth := scaledWidth
    scaledHeight := scaledHeight }

/-- Geometry computed by the device variant `convertImageToPDFClient`:
`scale = min(pageWidth/w, pageHeight/h, 1)` (the `1` prevents upscaling),
then centering. -/
def clientGeometry (width height : ℚ) : PageGeometry :=
  let scale := min (min (pageWidth / width) (pageHeight / height)) 1
  let scaledWidth := width * scale
  let scaledHeight := height * scale
  { scale := scale
    drawX := (pageWidth - scaledWidth) / 2
    drawY := (pageHeight - scaledHeight) / 2
    scaledWidth := scaledWidth
    scaledHeight := scaledHeight }

/-! ### The mobile client's hand-rolled base64 codec

`uint8ArrayToBase64` and `base64ToUint8Array` in `mobile/utils/pdfConverter.ts`
(lines 15-64).  Bytes are modelled as `List ℕ` (each element < 256) and JS
strings as `List Char`.

The encoder walks the byte array three at a time; crucially, the index `i` is
only post-incremented for bytes that actually exist
(`const b = i < bytes.length ? bytes[i++] : 0`), so after a trailing group of
1 or 2 bytes the padding guards `i - 2 < bytes.length` and
`i - 1 < bytes.length` still hold and a real alphabet character (of the
zero-extended bitmap) is emitted instead of the intended unconditional `=`.
We carry the guards over literally: with `adv` the number of index increments
inside the group and `len` the number of bytes remaining at the start of the
group, `i - 2 < bytes.length` is `adv - 2 < len` over ℤ, i.e. `adv < len + 2`. -/

def b64EncChars : List Char :=
  "ABCDEFGHIJKLMNOPQRSTUVWXYZabcdefghijklmnopqrstuvwxyz0123456789+/".data

/-- JS `chars.charAt(n)` on the encoder's 64-character alphabet. -/
def charAt64 (n : ℕ) : Char :=
  b64EncChars.getD n 'A'

/-- One iteration of the encoder loop: emit four characters for the group
`a, b, c` (missing bytes already replaced by `0`), with the source's padding
guards `i - 2 < bytes.length` / `i - 1 < bytes.length` expressed through
`adv` (index increments in this group) and `len` (bytes remaining at group
start). -/
def encodeChunk (a b c adv len : ℕ) : List Char :=
  let bitmap := (a <<< 16) ||| (b <<< 8) ||| c
  [ charAt64 ((bitmap >>> 18) &&& 63),
    charAt64 ((bitmap >>> 12) &&& 63),
    if adv < len + 2 then charAt64 ((bitmap >>> 6) &&& 63) else '=',
    if adv < len + 1 then charAt64 (bitmap &&& 63) else '=' ]

/-- `uint8ArrayToBase64` (mobile, lines 45-64). -/
def uint8ArrayToBase64 : List ℕ → List Char
  | [] => []
  | [a] => encodeChunk a 0 0 1 1
  | [a, b] => encodeChunk a b 0 2 2
  | a :: b :: c :: rest => encodeChunk a b c 3 (rest.length + 3) ++ uint8ArrayToBase64 rest

/-- The decoder's 65-character table (it appends `=`, which gets index 64). -/
def b64DecChars : List Char :=
  "ABCDEFGHIJKLMNOPQRSTUVWXYZabcdefghijklmnopqrstuvwxyz0123456789+/=".data

/-- The decoder's `lookup` typed array: index of the character in the table,
`0` for characters never written to the table. -/
def b64lookup (ch : Char) : ℕ :=
  (List.findIdx? (fun x => x == ch) b64DecChars).getD 0

/-- The character class kept by `base64.replace(/[^A-Za-z0-9\+\/]/g, '')`. -/
def keepB64Char (ch : Char) : Bool :=
  (65 ≤ ch.toNat && ch.toNat ≤ 90) || (97 ≤ ch.toNat && ch.toNat ≤ 122) ||
    (48 ≤ ch.toNat && ch.toNat ≤ 57) || ch == '+' || ch == '/'

/-- One iteration of the decoder loop: three bytes from four 6-bit codes
(missing characters read as code `0`, since `charCodeAt` out of range is `NaN`
and `lookup[NaN] >> k` is `0`); the `% 256` is the `Uint8Array` element
store. -/
def decodeChunk (e1 e2 e3 e4 : ℕ) : List ℕ :=
  [ ((e1 <<< 2) ||| (e2 >>> 4)) % 256,
    (((e2 &&& 15) <<< 4) ||| (e3 >>> 2)) % 256,
    (((e3 &&& 3) <<< 6) ||| (e4 &&& 63)) % 256 ]

/-- The decoder loop over the cleaned character list, four at a time. -/
def base64DecodeGroups : List Char → List ℕ
  | [] => []
  | [c1] => decodeChunk (b64lookup c1) 0 0 0
  | [c1, c2] => decodeChunk (b64lookup c1) (b64lookup c2) 0 0
  | [c1, c2, c3] => decodeChunk (b64lookup c1) (b64lookup c2) (b64lookup c3) 0
  | c1 :: c2 :: c3 :: c4 :: rest =>
      decodeChunk (b64lookup c1) (b64lookup c2) (b64lookup c3) (b64lookup c4) ++
        base64DecodeGroups rest

/-- `base64ToUint8Array` (mobile, lines 15-40): strip non-alphabet characters,
allocate `⌊len * 0.75⌋` bytes (`len * 0.75` is exact in binary floating point,
and the typed-array constructor truncates), decode in groups of four, and
discard writes past the end of the buffer. -/
def base64ToUint8Array (base64 : List Char) : List ℕ :=
  let base64Data := base64.filter keepB64Char
  (base64DecodeGroups base64Data).take (base64Data.length * 3 / 4)

/-! ### PDF controller (`pdf.controller.ts`)

The three endpoints are modelled as explicit state transitions.  The server
state holds the `fileConversion` rows (keyed by id), the stored PDF files
(path ↦ byte size) and the uploaded temp files.  External nondeterminism —
which user is authenticated, which file was uploaded, whether the converter
succeeded, and how the download stream terminated — enters as parameters. -/

structure Conversion where
  userId : ℕ
  pdfPath : ℕ
deriving DecidableEq, Repr

structure ServerState where
  db : List (ℕ × Conversion)
  pdfFiles : List (ℕ × ℕ)
  uploadFiles : List ℕ
deriving DecidableEq, Repr

inductive ResBody where
  | json
  | pdfFile (path : ℕ)
  | aborted
deriving DecidableEq, Repr

structure HttpRes where
  status : ℕ
  body : ResBody
deriving DecidableEq, Repr

/-- How the delivery stream of a download terminated: fully delivered,
failed with a read error, or cut short by a client disconnect. -/
inductive StreamOutcome where
  | success
  | streamError
  | clientDisconnect
deriving DecidableEq, Repr

/-- `getPDF` (controller lines 156-285): auth, lookup, ownership check, file
existence and plausibility checks, then streaming; the `finish` handler
deletes the file and then the row only when
`statusCode === 200 && streamEnded && !hasStreamError`. -/
def getPDF (s : ServerState) (user : Option ℕ) (id : ℕ) (outcome : StreamOutcome) :
    HttpRes × ServerState :=
  match user with
  | none => ({ status := 401, body := ResBody.json }, s)
  | some u =>
    match s.db.lookup id with
    | none => ({ status := 404, body := ResBody.json }, s)
    | some conversion =>
      if conversion.userId != u then ({ status := 403, body := ResBody.json }, s)
      else
        match s.pdfFiles.lookup conversion.pdfPath with
        | none => ({ status := 404, body := ResBody.json }, s)
        | some size =>
          if size < 100 then ({ status := 500, body := ResBody.json }, s)
          else
            let statusCode := 200
            let streamEnded := outcome == StreamOutcome.success
            let hasStreamError := outcome == StreamOutcome.streamError
            if statusCode == 200 && streamEnded && !hasStreamError then
              ({ status := statusCode, body := ResBody.pdfFile conversion.pdfPath },
                { s with db := s.db.filter (fun p => p.1 != id),
                         pdfFiles := s.pdfFiles.filter (fun p => p.1 != conversion.pdfPath) })
            else
              ({ status := statusCode, body := ResBody.aborted }, s)

/-- `deleteConversion` (controller lines 288-344): auth, lookup (a missing
row answers success immediately), ownership check, then best-effort file
unlink and row delete (both tolerate the artifact being gone already). -/
def deleteConversion (s : ServerState) (user : Option ℕ) (id : ℕ) :
    HttpRes × ServerState :=
  match user with
  | none => ({ status := 401, body := ResBody.json }, s)
  | some u =>
    match s.db.lookup id with
    | none => ({ status := 200, body := ResBody.json }, s)
    | some conversion =>
      if conversion.userId != u then ({ status := 403, body := ResBody.json }, s)
      else
        ({ status := 200, body := ResBody.json },
          { s with db := s.db.filter (fun p => p.1 != id),
                   pdfFiles := s.pdfFiles.filter (fun p => p.1 != conversion.pdfPath) })

structure UploadedFile where
  path : ℕ
  mimetype : String
deriving DecidableEq, Repr

/-- `getSupportedMimeTypes` (`pdfConverter.ts`, lines 256-268). -/
def getSupportedMimeTypes : List String :=
  ["image/jpeg", "image/jpg", "image/png", "image/gif", "image/webp",
    "image/heic", "image/heif"]

/-- `convertToPDF` (controller lines 19-98): auth and upload checks, MIME
allow-list pre-check, then `convertDocumentToPDF` (whose outcome — the new
PDF's path and size, or a thrown error — is the `convResult` parameter).  On
success the uploaded temp file is unlinked, the PDF file exists on disk and a
row is created; a converter error jumps to the outer catch, which answers 500
without touching any file. -/
def convertToPDF (s : ServerState) (user : Option ℕ) (file : Option UploadedFile)
    (newId : ℕ) (convResult : Except Unit (ℕ × ℕ)) : HttpRes × ServerState :=
  match user with
  | none => ({ status := 401, body := ResBody.json }, s)
  | some u =>
    match file with
    | none => ({ status := 400, body := ResBody.json }, s)
    | some f =>
      if !(getSupportedMimeTypes.contains f.mimetype) then
        ({ status := 400, body := ResBody.json }, s)
      else
        match convResult with
        | Except.error _ => ({ status := 500, body := ResBody.json }, s)
        | Except.ok (pdfPath, pdfSize) =>
          ({ status := 200, body := ResBody.json },
            { db := (newId, { userId := u, pdfPath := pdfPath }) :: s.db,
              pdfFiles := (pdfPath, pdfSize) :: s.pdfFiles,
              uploadFiles := s.uploadFiles.filter (fun p => p != f.path) })

/-! ### Image-normalizer routing (`convertImageToPDF`, lines 39-79) -/

inductive DecodeRoute where
  | heicTranscodeFirst
  | genericDecode
deriving DecidableEq, Repr

/-- The decode branch of `convertImageToPDF`: the format sharp detected from
the buffer's content (`metadata.format`) selects the `heic-convert`
sub-decoder or the generic sharp decode.  The function receives no MIME
hint at all — the caller-supplied type cannot influence this choice. -/
def normalizeRoute (detectedFormat : String) : DecodeRoute :=
  if detectedFormat = "heic" ∨ detectedFormat = "heif" then DecodeRoute.heicTranscodeFirst
  else DecodeRoute.genericDecode

/-- `convertDocumentToPDF` (lines 222-242): the declared MIME type only
gates whether image conversion is attempted at all (`image/` dispatch);
when it is, the decode route is chosen from the detected format alone. -/
def convertDocumentRoute (mimeType detectedFormat : String) : Option DecodeRoute :=
  if mimeType.startsWith ("image/") then some (normalizeRoute detectedFormat)
  else none

/-! ### Client-side conversion gate (mobile) -/

/-- `canConvertClientSide` (mobile, lines 151-169): client-side conversion is
disabled entirely, because iOS mislabels HEIC files as JPEG. -/
def canConvertClientSide (mimeType : String) : Bool :=
  false

/-- The DEVICE button of the convert screen (`pdf-convert.tsx`, line 313 and
371): rendered only when a file is selected and `canConvertClientSide` allows
it; `convertImageToPDFClient` is reachable only through this button. -/
def deviceButtonVisible (selectedFileType : Option String) : Bool :=
  match selectedFileType with
  | some t => canConvertClientSide t
  | none => false

/-! ### Theorems -/

/-- Claim C1, counterexample: for a 100×100 image the server variant's scale is
`min(595/100, 842/100) = 119/20 > 1`, so it is not `min(595/100, 842/100, 1)`
and the image is upscaled; the claimed formula fails for the server variant. -/
theorem serverScale_exceeds_one_cex :
    (serverGeometry 100 100).scale = 119 / 20 ∧
    ¬ (serverGeometry 100 100).scale ≤ 1 ∧
    (serverGeometry 100 100).scale ≠ min (min (pageWidth / 100) (pageHeight / 100)) 1 := by
  refine ⟨?_, ?_, ?_⟩ <;> norm_num [serverGeometry, pageWidth, pageHeight]

/-- Claim C1 (amended): the device variant's scale equals
`min(pageWidth/w, pageHeight/h, 1)` and never exceeds 1, but the server
variant's scale equals `min(pageWidth/w, pageHeight/h)` with no cap, and it
exceeds 1 exactly when both dimensions are strictly smaller than the page. -/
theorem scale_formula_by_variant (w h : ℚ) (hw : 0 < w) (hh : 0 < h) :
    (clientGeometry w h).scale = min (min (pageWidth / w) (pageHeight / h)) 1 ∧
    (clientGeometry w h).scale ≤ 1 ∧
    (serverGeometry w h).scale = min (pageWidth / w) (pageHeight / h) ∧
    (1 < (serverGeometry w h).scale ↔ w < pageWidth ∧ h < pageHeight) := by
  refine ⟨rfl, min_le_right _ _, rfl, ?_⟩
  rw [show (serverGeometry w h).scale = min (pageWidth / w) (pageHeight / h) from rfl,
    lt_min_iff, one_lt_div hw, one_lt_div hh]

/-- Claim C1 witness: instantiation at the concrete 100×100 input. -/
theorem scale_formula_by_variant_witness :
    (clientGeometry 100 100).scale ≤ 1 ∧ 1 < (serverGeometry 100 100).scale := by
  have h := scale_formula_by_variant 100 100 (by norm_num) (by norm_num)
  exact ⟨h.2.1, h.2.2.2.mpr (by norm_num [pageWidth, pageHeight])⟩

/-- Claim C2, counterexample: on a 100×100 input (same normalized dimensions
reaching both compositors) the two variants disagree: the server variant
upscales to fill the page while the device variant keeps natural size. -/
theorem variant_geometry_differs_cex :
    serverGeometry 100 100 ≠ clientGeometry 100 100 ∧
    (serverGeometry 100 100).scaledWidth = 595 ∧
    (clientGeometry 100 100).scaledWidth = 100 := by
  refine ⟨?_, ?_, ?_⟩ <;>
    norm_num [serverGeometry, clientGeometry, pageWidth, pageHeight, PageGeometry.mk.injEq]

/-- Claim C2 (amended): both variants target the same 595×842 page and the
same centering formula, and they draw the image identically whenever no
upscaling is involved.  The server normalizer shrinks the raster by an
aspect-preserving factor `r ≤ 1` (the sharp `fit: inside` resize) while the
device variant embeds the original; provided the (resized) image does not fit
strictly inside the page (`min(pageWidth/(r·w), pageHeight/(r·h)) ≤ 1`), the
drawn rectangle is the same in both variants.  When both dimensions are
smaller than the page the variants differ (see the counterexample). -/
theorem variant_geometry_agree_when_no_upscale (w h r : ℚ)
    (hw : 0 < w) (hh : 0 < h) (hr : 0 < r) (hr1 : r ≤ 1)
    (hfit : min (pageWidth / (r * w)) (pageHeight / (r * h)) ≤ 1) :
    (serverGeometry (r * w) (r * h)).scaledWidth = (clientGeometry w h).scaledWidth ∧
    (serverGeometry (r * w) (r * h)).scaledHeight = (clientGeometry w h).scaledHeight ∧
    (serverGeometry (r * w) (r * h)).drawX = (clientGeometry w h).drawX ∧
    (serverGeometry (r * w) (r * h)).drawY = (clientGeometry w h).drawY := by
  have hdivw : pageWidth / (r * w) = (pageWidth / w) / r := by
    rw [div_div, mul_comm w r]
  have hdivh : pageHeight / (r * h) = (pageHeight / h) / r := by
    rw [div_div, mul_comm h r]
  have hmin : min (pageWidth / (r * w)) (pageHeight / (r * h)) =
      min (pageWidth / w) (pageHeight / h) / r := by
    rw [hdivw, hdivh, min_div_div_right hr.le]
  have hcap : min (pageWidth / w) (pageHeight / h) ≤ 1 := by
    rw [hmin, div_le_one hr] at hfit
    exact hfit.trans hr1
  have hclient : (clientGeometry w h).scale = min (pageWidth / w) (pageHeight / h) := by
    show min (min (pageWidth / w) (pageHeight / h)) 1 = _
    exact min_eq_left hcap
  have hserver : (serverGeometry (r * w) (r * h)).scale =
      min (pageWidth / w) (pageHeight / h) / r := by
    show min (pageWidth / (r * w)) (pageHeight / (r * h)) = _
    exact hmin
  have hsw : (serverGeometry (r * w) (r * h)).scaledWidth = (clientGeometry w h).scaledWidth := by
    show (r * w) * (serverGeometry (r * w) (r * h)).scale = w * (clientGeometry w h).scale
    rw [hserver, hclient]
    field_simp
    ring
  have hsh : (serverGeometry (r * w) (r * h)).scaledHeight =
      (clientGeometry w h).scaledHeight := by
    show (r * h) * (serverGeometry (r * w) (r * h)).scale = h * (clientGeometry w h).scale
    rw [hserver, hclient]
    field_simp
    ring
  refine ⟨hsw, hsh, ?_, ?_⟩
  · show (pageWidth - (serverGeometry (r * w) (r * h)).scaledWidth) / 2 =
      (pageWidth - (clientGeometry w h).scaledWidth) / 2
    rw [hsw]
  · show (pageHeight - (serverGeometry (r * w) (r * h)).scaledHeight) / 2 =
      (pageHeight - (clientGeometry w h).scaledHeight) / 2
    rw [hsh]

/-- Claim C2 witness: the spec's own 4000×3000 scenario; the server resize
factor is `r = 31/50` (4000×3000 → 2480×1860), and both variants draw a
595 × 446.25 rectangle. -/
theorem variant_geometry_agree_when_no_upscale_witness :
    (serverGeometry (31 / 50 * 4000) (31 / 50 * 3000)).scaledWidth =
      (clientGeometry 4000 3000).scaledWidth := by
  exact (variant_geometry_agree_when_no_upscale 4000 3000 (31 / 50)
    (by norm_num) (by norm_num) (by norm_num) (by norm_num)
    (by norm_num [pageWidth, pageHeight])).1

/-- Claim C8: both variants center the image on both axes:
`drawX + width·scale/2 = pageWidth/2` and `drawY + height·scale/2 =
pageHeight/2`, exactly (hence within any tolerance). -/
theorem centering_invariant (w h : ℚ) (hw : 0 < w) (hh : 0 < h) :
    ((serverGeometry w h).drawX + w * (serverGeometry w h).scale / 2 = pageWidth / 2 ∧
      (serverGeometry w h).drawY + h * (serverGeometry w h).scale / 2 = pageHeight / 2) ∧
    ((clientGeometry w h).drawX + w * (clientGeometry w h).scale / 2 = pageWidth / 2 ∧
      (clientGeometry w h).drawY + h * (clientGeometry w h).scale / 2 = pageHeight / 2) := by
  refine ⟨⟨?_, ?_⟩, ⟨?_, ?_⟩⟩ <;> simp only [serverGeometry, clientGeometry] <;> ring

/-- Claim C8 witness: instantiation at the concrete 4000×3000 input. -/
theorem centering_invariant_witness :
    (serverGeometry 4000 3000).drawX + 4000 * (serverGeometry 4000 3000).scale / 2 =
      pageWidth / 2 :=
  ((centering_invariant 4000 3000 (by norm_num) (by norm_num)).1).1

/-! ### Round-trip analysis of the codec -/

theorem and63_eq_mod (x : ℕ) : x &&& 63 = x % 64 := by
  have h := Nat.and_pow_two_sub_one_eq_mod x 6
  norm_num at h
  exact h

theorem and15_eq_mod (x : ℕ) : x &&& 15 = x % 16 := by
  have h := Nat.and_pow_two_sub_one_eq_mod x 4
  norm_num at h
  exact h

theorem and3_eq_mod (x : ℕ) : x &&& 3 = x % 4 := by
  have h := Nat.and_pow_two_sub_one_eq_mod x 2
  norm_num at h
  exact h

theorem lor_disjoint (k x y : ℕ) (hy : y < 2 ^ k) : (x <<< k) ||| y = x * 2 ^ k + y := by
  rw [Nat.shiftLeft_eq, Nat.mul_comm x (2 ^ k), ← Nat.mul_add_lt_is_or hy x,
    Nat.mul_comm (2 ^ k) x]

theorem bitmap_eq (a b c : ℕ) (hb : b < 256) (hc : c < 256) :
    (a <<< 16) ||| (b <<< 8) ||| c = 65536 * a + 256 * b + c := by
  have h1 : (a <<< 16) ||| (b <<< 8) = a * 65536 + b * 256 := by
    rw [Nat.shiftLeft_eq b 8]
    have h := lor_disjoint 16 a (b * 2 ^ 8) (by norm_num; omega)
    norm_num at h ⊢
    omega
  have h2 : a * 65536 + b * 256 = (a * 256 + b) <<< 8 := by
    rw [Nat.shiftLeft_eq]
    norm_num
    ring
  rw [h1, h2, lor_disjoint 8 (a * 256 + b) c (by norm_num; omega)]
  norm_num
  ring

/-- Decoding the four 6-bit codes of a group recovers the three source bytes
(the trailing bytes of a short group come back as `0`). -/
theorem decode_encode_chunk (a b c : ℕ) (ha : a < 256) (hb : b < 256) (hc : c < 256) :
    decodeChunk ((((a <<< 16) ||| (b <<< 8) ||| c) >>> 18) &&& 63)
      ((((a <<< 16) ||| (b <<< 8) ||| c) >>> 12) &&& 63)
      ((((a <<< 16) ||| (b <<< 8) ||| c) >>> 6) &&& 63)
      (((a <<< 16) ||| (b <<< 8) ||| c) &&& 63) = [a, b, c] := by
  rw [bitmap_eq a b c hb hc]
  simp only [decodeChunk, and63_eq_mod, and15_eq_mod, and3_eq_mod, Nat.shiftRight_eq_div_pow]
  rw [lor_disjoint 2 _ _ (by omega), lor_disjoint 4 _ _ (by omega),
    lor_disjoint 6 _ _ (by omega)]
  simp only [List.cons.injEq, and_true]
  norm_num
  refine ⟨?_, ?_, ?_⟩ <;> omega

theorem and63_lt (x : ℕ) : x &&& 63 < 64 :=
  lt_of_le_of_lt Nat.and_le_right (by norm_num)

theorem charAt64_keep : ∀ n : Fin 64, keepB64Char (charAt64 n.val) = true := by decide

theorem charAt64_lookup : ∀ n : Fin 64, b64lookup (charAt64 n.val) = n.val := by decide

theorem keep_code (x : ℕ) : keepB64Char (charAt64 (x &&& 63)) = true :=
  charAt64_keep ⟨x &&& 63, and63_lt x⟩

theorem lookup_code (x : ℕ) : b64lookup (charAt64 (x &&& 63)) = x &&& 63 :=
  charAt64_lookup ⟨x &&& 63, and63_lt x⟩

/-- With the index bookkeeping of the source, the two padding guards hold for
every group, so every group emits four alphabet characters and no `=`. -/
theorem encodeChunk_eq (a b c adv len : ℕ) (h3 : adv < len + 2) (h4 : adv < len + 1) :
    encodeChunk a b c adv len =
      [charAt64 ((((a <<< 16) ||| (b <<< 8) ||| c) >>> 18) &&& 63),
        charAt64 ((((a <<< 16) ||| (b <<< 8) ||| c) >>> 12) &&& 63),
        charAt64 ((((a <<< 16) ||| (b <<< 8) ||| c) >>> 6) &&& 63),
        charAt64 (((a <<< 16) ||| (b <<< 8) ||| c) &&& 63)] := by
  simp [encodeChunk, h3, h4]

/-- Structure of the encoder output: it survives the decoder's character
filter unchanged, has `4·⌈n/3⌉` characters, and group-decoding it yields the
input bytes padded with zeros to the next multiple of three. -/
theorem b64_groups_spec : ∀ (bytes : List ℕ), (∀ x ∈ bytes, x < 256) →
    (uint8ArrayToBase64 bytes).filter keepB64Char = uint8ArrayToBase64 bytes ∧
    (uint8ArrayToBase64 bytes).length = 4 * ((bytes.length + 2) / 3) ∧
    base64DecodeGroups (uint8ArrayToBase64 bytes) =
      bytes ++ List.replicate ((3 - bytes.length % 3) % 3) 0
  | [], _ => by
    refine ⟨rfl, rfl, rfl⟩
  | [a], h => by
    have ha : a < 256 := h a (by simp)
    rw [show uint8ArrayToBase64 [a] = encodeChunk a 0 0 1 1 from rfl,
      encodeChunk_eq a 0 0 1 1 (by omega) (by omega)]
    refine ⟨?_, ?_, ?_⟩
    · simp [List.filter, keep_code]
    · simp
    · simp only [base64DecodeGroups, lookup_code]
      rw [decode_encode_chunk a 0 0 ha (by norm_num) (by norm_num)]
      rfl
  | [a, b], h => by
    have ha : a < 256 := h a (by simp)
    have hb : b < 256 := h b (by simp)
    rw [show uint8ArrayToBase64 [a, b] = encodeChunk a b 0 2 2 from rfl,
      encodeChunk_eq a b 0 2 2 (by omega) (by omega)]
    refine ⟨?_, ?_, ?_⟩
    · simp [List.filter, keep_code]
    · simp
    · simp only [base64DecodeGroups, lookup_code]
      rw [decode_encode_chunk a b 0 ha hb (by norm_num)]
      rfl
  | a :: b :: c :: rest, h => by
    have ha : a < 256 := h a (by simp)
    have hb : b < 256 := h b (by simp)
    have hc : c < 256 := h c (by simp)
    have ih := b64_groups_spec rest (fun x hx => h x (by simp [hx]))
    obtain ⟨ihf, ihl, ihd⟩ := ih
    rw [show uint8ArrayToBase64 (a :: b :: c :: rest) =
        encodeChunk a b c 3 (rest.length + 3) ++ uint8ArrayToBase64 rest from rfl,
      encodeChunk_eq a b c 3 (rest.length + 3) (by omega) (by omega)]
    refine ⟨?_, ?_, ?_⟩
    · rw [List.filter_append, ihf]
      simp [List.filter, keep_code]
    · rw [List.length_append, ihl]
      simp only [List.length_cons, List.length_nil]
      omega
    · show base64DecodeGroups (_ :: _ :: _ :: _ :: uint8ArrayToBase64 rest) = _
      rw [base64DecodeGroups, lookup_code, lookup_code, lookup_code, lookup_code,
        decode_encode_chunk a b c ha hb hc, ihd]
      simp only [List.cons_append, List.nil_append, List.length_cons]
      have hm : (rest.length + 1 + 1 + 1) % 3 = rest.length % 3 := by omega
      rw [hm]

/-- Claim C10, counterexample: the encoder never emits `=` (its padding guards
are never false), so a one-byte input round-trips to three bytes, not one. -/
theorem base64_roundtrip_cex :
    uint8ArrayToBase64 [0] = "AAAA".data ∧
    base64ToUint8Array (uint8ArrayToBase64 [0]) = [0, 0, 0] ∧
    base64ToUint8Array (uint8ArrayToBase64 [0]) ≠ [0] := by decide

/-- Claim C10 (amended): decoding the encoding of a byte list `b` gives `b`
padded with zero bytes to the next multiple of three — the encoder emits no
`=` padding (its guards, which post-increment `i` only for bytes read, always
hold), so the decoder keeps every character and reconstructs `⌈n/3⌉` full
groups.  The round-trip law `decode (encode b) = b` therefore holds exactly
when `b.length` is a multiple of three, and fails otherwise. -/
theorem base64_roundtrip_amended (bytes : List ℕ) (h : ∀ x ∈ bytes, x < 256) :
    base64ToUint8Array (uint8ArrayToBase64 bytes) =
      bytes ++ List.replicate ((3 - bytes.length % 3) % 3) 0 := by
  obtain ⟨hfilter, hlen, hdec⟩ := b64_groups_spec bytes h
  show ((uint8ArrayToBase64 bytes).filter keepB64Char |> base64DecodeGroups).take
      (((uint8ArrayToBase64 bytes).filter keepB64Char).length * 3 / 4) = _
  rw [hfilter, hlen, hdec]
  have hq : 4 * ((bytes.length + 2) / 3) * 3 / 4 =
      (bytes ++ List.replicate ((3 - bytes.length % 3) % 3) 0).length := by
    simp only [List.length_append, List.length_replicate]
    omega
  rw [hq, List.take_length]

/-- Claim C10 witness: instantiation at the three-byte input `[77, 97, 110]`,
whose length is a multiple of three, so the round-trip is exact. -/
theorem base64_roundtrip_amended_witness :
    (∀ x ∈ [77, 97, 110], x < 256) ∧
    base64ToUint8Array (uint8ArrayToBase64 [77, 97, 110]) =
      [77, 97, 110] ++ List.replicate ((3 - [77, 97, 110].length % 3) % 3) 0 :=
  ⟨by decide, base64_roundtrip_amended [77, 97, 110] (by decide)⟩

theorem lookup_filter_ne {β : Type} (l : List (ℕ × β)) (k : ℕ) :
    (l.filter (fun p => p.1 != k)).lookup k = none := by
  induction l with
  | nil => rfl
  | cons hd tl ih =>
    by_cases hk : hd.1 = k
    · simp only [List.filter_cons]
      rw [show (hd.1 != k) = false by simp [hk]]
      simpa using ih
    · simp only [List.filter_cons]
      rw [show (hd.1 != k) = true by simp [hk]]
      simp only [List.lookup]
      rw [show (k == hd.1) = false by simp [Ne.symm hk]]
      exact ih

/-- Claim C3: with an existing, owned record whose stored file exists and is
plausibly sized, a fully successful download (status 200, stream ended, no
stream error) deletes both the stored file and the database row, while a
stream error or client disconnect leaves the state — and hence the record's
retrievability — untouched. -/
theorem getPDF_purge_on_success_only (s : ServerState) (u id : ℕ)
    (conversion : Conversion) (size : ℕ)
    (hdb : s.db.lookup id = some conversion) (hown : conversion.userId = u)
    (hfile : s.pdfFiles.lookup conversion.pdfPath = some size) (hsize : 100 ≤ size) :
    ((getPDF s (some u) id StreamOutcome.success).1 =
        { status := 200, body := ResBody.pdfFile conversion.pdfPath } ∧
      (getPDF s (some u) id StreamOutcome.success).2.db.lookup id = none ∧
      (getPDF s (some u) id StreamOutcome.success).2.pdfFiles.lookup conversion.pdfPath =
        none) ∧
    ∀ o, o ≠ StreamOutcome.success → (getPDF s (some u) id o).2 = s := by
  have hne : (conversion.userId != u) = false := by simp [hown]
  have hlt : ¬ size < 100 := by omega
  constructor
  · simp only [getPDF, hdb, hne, hfile]
    simp [hlt, lookup_filter_ne]
  · intro o ho
    cases o with
    | success => exact absurd rfl ho
    | streamError => simp only [getPDF, hdb, hne, hfile]; simp [hlt]
    | clientDisconnect => simp only [getPDF, hdb, hne, hfile]; simp [hlt]

/-- Claim C3 witness: a concrete owned record; the successful download purges
the row, the disconnected one leaves the state unchanged. -/
theorem getPDF_purge_on_success_only_witness :
    (getPDF (ServerState.mk [(1, Conversion.mk 7 3)] [(3, 150)] []) (some 7) 1
        StreamOutcome.success).2.db.lookup 1 = none ∧
    (getPDF (ServerState.mk [(1, Conversion.mk 7 3)] [(3, 150)] []) (some 7) 1
        StreamOutcome.clientDisconnect).2 =
      ServerState.mk [(1, Conversion.mk 7 3)] [(3, 150)] [] := by
  have h := getPDF_purge_on_success_only (ServerState.mk [(1, Conversion.mk 7 3)] [(3, 150)] [])
    7 1 (Conversion.mk 7 3) 150 (by decide) (by decide) (by decide) (by decide)
  exact ⟨h.1.2.1, h.2 StreamOutcome.clientDisconnect (by decide)⟩

/-- Claim C4: a fetch or delete on an existing record by a non-owner answers
403 Forbidden with no content and no state change; and the PDF content is
ever returned only to the owner of an existing record, so a non-owner never
receives it whether the record exists or not. -/
theorem ownership_enforced :
    (∀ (s : ServerState) (u id : ℕ) (conversion : Conversion) (o : StreamOutcome),
        s.db.lookup id = some conversion → conversion.userId ≠ u →
        getPDF s (some u) id o = ({ status := 403, body := ResBody.json }, s) ∧
        deleteConversion s (some u) id = ({ status := 403, body := ResBody.json }, s)) ∧
    (∀ (s : ServerState) (u id : ℕ) (o : StreamOutcome) (p : ℕ),
        (getPDF s (some u) id o).1.body = ResBody.pdfFile p →
        ∃ conversion, s.db.lookup id = some conversion ∧ conversion.userId = u) := by
  constructor
  · intro s u id conversion o hdb hne
    have hb : (conversion.userId != u) = true := by simp [hne]
    constructor
    · simp only [getPDF, hdb, hb]
      rfl
    · simp only [deleteConversion, hdb, hb]
      rfl
  · intro s u id o p hbody
    simp only [getPDF] at hbody
    split at hbody
    · simp at hbody
    · rename_i conversion heq
      split at hbody
      · simp at hbody
      · rename_i hbne
        exact ⟨conversion, heq, by simpa using hbne⟩

/-- Claim C4 witness: a non-owner (user 9) fetching user 7's record gets 403
and an unchanged state. -/
theorem ownership_enforced_witness :
    getPDF (ServerState.mk [(1, Conversion.mk 7 3)] [(3, 150)] []) (some 9) 1
      StreamOutcome.success =
      ({ status := 403, body := ResBody.json },
        ServerState.mk [(1, Conversion.mk 7 3)] [(3, 150)] []) :=
  (ownership_enforced.1 (ServerState.mk [(1, Conversion.mk 7 3)] [(3, 150)] []) 9 1
    (Conversion.mk 7 3) StreamOutcome.success (by decide) (by decide)).1

/-- Claim C5: deletion is idempotent for the record's owner (for a missing
record, for any caller): the first call answers success whether or not the
row or the file still exists, and the immediately repeated call — the record
now gone — answers success again. -/
theorem delete_idempotent (s : ServerState) (u id : ℕ)
    (hown : ∀ conversion, s.db.lookup id = some conversion → conversion.userId = u) :
    (deleteConversion s (some u) id).1 = { status := 200, body := ResBody.json } ∧
    (deleteConversion (deleteConversion s (some u) id).2 (some u) id).1 =
      { status := 200, body := ResBody.json } := by
  cases hdb : s.db.lookup id with
  | none =>
    have h1 : deleteConversion s (some u) id = ({ status := 200, body := ResBody.json }, s) := by
      simp only [deleteConversion, hdb]
    rw [h1]
    exact ⟨rfl, by rw [show (({ status := 200, body := ResBody.json } : HttpRes), s).2 = s
      from rfl, h1]⟩
  | some conversion =>
    have hb : (conversion.userId != u) = false := by simp [hown conversion hdb]
    have h1 : deleteConversion s (some u) id =
        ({ status := 200, body := ResBody.json },
          { s with db := s.db.filter (fun p => p.1 != id),
                   pdfFiles := s.pdfFiles.filter (fun p => p.1 != conversion.pdfPath) }) := by
      simp only [deleteConversion, hdb, hb]
      rfl
    rw [h1]
    refine ⟨rfl, ?_⟩
    simp only [deleteConversion, lookup_filter_ne]

/-- Claim C5 witness: deleting an owned record twice; the second call finds
nothing and still succeeds. -/
theorem delete_idempotent_witness :
    (deleteConversion (ServerState.mk [(1, Conversion.mk 7 3)] [(3, 150)] []) (some 7) 1).1 =
      { status := 200, body := ResBody.json } ∧
    (deleteConversion (deleteConversion (ServerState.mk [(1, Conversion.mk 7 3)] [(3, 150)] [])
        (some 7) 1).2 (some 7) 1).1 = { status := 200, body := ResBody.json } :=
  delete_idempotent (ServerState.mk [(1, Conversion.mk 7 3)] [(3, 150)] []) 7 1
    (by intro conversion h; simp [List.lookup] at h; simp [← h])

/-- Claim C6: a buffer whose content-detected format is HEIC or HEIF is
always routed through the `heic-convert` sub-decoder and never handed
directly to the generic sharp decode; the declared MIME type only gates
whether image conversion runs at all and can never send a detected-HEIC
buffer down the generic route. -/
theorem heic_routing (mime fmt : String) (hf : fmt = "heic" ∨ fmt = "heif") :
    normalizeRoute fmt = DecodeRoute.heicTranscodeFirst ∧
    normalizeRoute fmt ≠ DecodeRoute.genericDecode ∧
    ∀ route, convertDocumentRoute mime fmt = some route →
      route = DecodeRoute.heicTranscodeFirst := by
  have h1 : normalizeRoute fmt = DecodeRoute.heicTranscodeFirst := by
    simp [normalizeRoute, hf]
  refine ⟨h1, by simp [h1], ?_⟩
  intro route hr
  simp only [convertDocumentRoute] at hr
  by_cases hs : mime.startsWith ("image/") = true
  · rw [if_pos hs, h1] at hr
    exact (Option.some_inj.mp hr).symm
  · rw [if_neg hs] at hr
    exact absurd hr (by simp)

/-- Claim C6 witness: a HEIC buffer mislabeled `image/jpeg` still takes the
sub-decoder route. -/
theorem heic_routing_witness :
    normalizeRoute ("heic") = DecodeRoute.heicTranscodeFirst ∧
    ∀ route, convertDocumentRoute ("image/jpeg") ("heic") = some route →
      route = DecodeRoute.heicTranscodeFirst :=
  ⟨(heic_routing ("image/jpeg") ("heic") (Or.inl rfl)).1,
    (heic_routing ("image/jpeg") ("heic") (Or.inl rfl)).2.2⟩

/-- Claim C7, counterexample: when the converter throws, the outer catch
answers 500 and the uploaded temp file (path 5) is still present — the
original upload is retained after encoding terminated in failure. -/
theorem upload_retained_on_failure_cex :
    convertToPDF (ServerState.mk [] [] [5]) (some 1)
        (some (UploadedFile.mk 5 ("image/jpeg"))) 9 (Except.error ()) =
      ({ status := 500, body := ResBody.json }, ServerState.mk [] [] [5]) ∧
    5 ∈ (convertToPDF (ServerState.mk [] [] [5]) (some 1)
        (some (UploadedFile.mk 5 ("image/jpeg"))) 9 (Except.error ())).2.uploadFiles := by
  decide

/-- Claim C7 (amended): the uploaded file is deleted only on the success
path: a successful conversion unlinks it, but a conversion failure jumps to
the outer catch, which answers 500 with the state — the upload included —
untouched. -/
theorem upload_cleanup_amended (s : ServerState) (u : ℕ) (f : UploadedFile)
    (newId pdfPath pdfSize : ℕ)
    (hmime : getSupportedMimeTypes.contains f.mimetype = true) :
    f.path ∉ (convertToPDF s (some u) (some f) newId
        (Except.ok (pdfPath, pdfSize))).2.uploadFiles ∧
    ∀ e, convertToPDF s (some u) (some f) newId (Except.error e) =
      ({ status := 500, body := ResBody.json }, s) := by
  have hmem : f.mimetype ∈ getSupportedMimeTypes := by simpa using hmime
  constructor
  · simp [convertToPDF, hmem, List.mem_filter]
  · intro e
    simp [convertToPDF, hmem]

/-- Claim C7 witness: a supported upload that converts successfully has its
temp file removed. -/
theorem upload_cleanup_amended_witness :
    5 ∉ (convertToPDF (ServerState.mk [] [] [5]) (some 1)
        (some (UploadedFile.mk 5 ("image/png"))) 9 (Except.ok (3, 150))).2.uploadFiles ∧
    getSupportedMimeTypes.contains ("image/png") = true := by
  refine ⟨?_, by decide⟩
  exact (upload_cleanup_amended (ServerState.mk [] [] [5]) 1 (UploadedFile.mk 5 ("image/png"))
    9 3 150 (by decide)).1

/-- Claim C9: `canConvertClientSide` returns `false` for every MIME type, so
the DEVICE button is never rendered and the device-local conversion path is
never selected — every conversion goes to the server variant. -/
theorem client_side_disabled :
    (∀ mimeType, canConvertClientSide mimeType = false) ∧
    ∀ selected, deviceButtonVisible selected = false := by
  refine ⟨fun _ => rfl, fun selected => ?_⟩
  cases selected <;> rfl

